import Mathlib

set_option linter.unusedVariables false

/-!
Verification of the utcp-mcp-gateway response-shaping, configuration-resolution,
tool-lookup, tool-routing and lazy-initialization logic, via a shallow embedding
of `src/llm-filter.ts`, `src/config.ts` and `src/server.ts`.

Conventions of the embedding:
* JavaScript strings are Lean `String`s; `content.slice(0, n)` is `jsSlice`
  (take the first `n` characters); `content.length` is `String.length`.
* `process.env` is a function `Env := String → Option String` (`none` models an
  unset variable, `some ""` models a variable set to the empty string).
* JavaScript string truthiness (`!!s`, `if (s)`) is `strTruthy` / `jsOr`.
* The completion-API collaborator (OpenAI chat completion) is external; the
  outcome of one call is an oracle value `api : Option String`, where `none`
  models a thrown exception and `some s` models a response whose extracted
  message content is `s` (a missing `choices[0]?.message?.content` collapses to
  `some ""`, exactly as the source's `|| ''` does).
-/

namespace Gateway

/-- `process.env`: a partial map from variable names to string values. -/
def Env : Type := String → Option String

/-- JavaScript truthiness of a possibly-undefined string: `undefined` and `""`
are falsy, every other string is truthy. -/
def strTruthy : Option String → Bool
  | none => false
  | some s => !(s == "")

/-- The JavaScript idiom `x || d` on a possibly-undefined string `x`. -/
def jsOr (x : Option String) (d : String) : String :=
  match x with
  | none => d
  | some s => if s == "" then d else s

/-- `s.slice(0, n)` for `n ≥ 0`: the first `n` characters of `s`. -/
def jsSlice (s : String) (n : Nat) : String :=
  String.mk (s.data.take n)

/-! ## Filter configuration (`src/config.ts`, `FilterConfigSchema`) -/

/-- `FilterConfig` from `src/config.ts`: `enabled`, `maxResponseChars`,
`summarizeThreshold`, `forceLlmFilter`. -/
structure FilterConfig where
  enabled : Bool
  maxResponseChars : Nat
  summarizeThreshold : Nat
  forceLlmFilter : Bool
deriving DecidableEq

/-! ## The response shaper (`src/llm-filter.ts`, class `LlmFilter`) -/

/-- The `LlmFilter` instance state: `hasClient` is whether `this.client` is
non-null (the constructor creates it exactly when `config.apiKey` is truthy),
and the filter configuration. -/
structure LlmFilter where
  hasClient : Bool
  filterConfig : FilterConfig
deriving DecidableEq

/-- The marker appended by `LlmFilter.truncate`:
`'\n\n[截断，原始长度: ' + content.length + ' 字符]'`. -/
def truncMarker (n : Nat) : String :=
  "\n\n[截断，原始长度: " ++ toString n ++ " 字符]"

/-- `LlmFilter.truncate` (src/llm-filter.ts lines 111–116): return the content
unchanged when it fits in `maxResponseChars`, otherwise the first
`maxResponseChars` characters followed by a marker stating the original
length. -/
def LlmFilter.truncate (f : LlmFilter) (content : String) : String :=
  if content.length ≤ f.filterConfig.maxResponseChars then content
  else jsSlice content f.filterConfig.maxResponseChars ++ truncMarker content.length

/-- `LlmFilter.summarize` (src/llm-filter.ts lines 58–106). The outbound
request (system prompt built from `purpose`, user content pre-truncated to
200000 characters) only affects the external call, whose outcome is the oracle
`api`: `none` models the `catch` branch (any thrown error), `some s` models a
response with extracted content `s`; the source's
`response.choices[0]?.message?.content || ''` makes a missing content equal to
`''`, and `summary || this.truncate(content)` falls back to truncation on the
empty summary. -/
def LlmFilter.summarize (f : LlmFilter) (content : String) (purpose : Option String)
    (api : Option String) : String :=
  if !f.hasClient then f.truncate content
  else
    match api with
    | none => f.truncate content
    | some summary => if summary == "" then f.truncate content else summary

/-- `LlmFilter.filter` (src/llm-filter.ts lines 30–53): the shaping decision
tree. Truncate when filtering is disabled or there is no client; else summarize
when `forceLlmFilter`; else pass through short content; else truncate content
below the summarize threshold; else summarize. -/
def LlmFilter.filter (f : LlmFilter) (content : String) (purpose : Option String)
    (api : Option String) : String :=
  if !f.filterConfig.enabled || !f.hasClient then f.truncate content
  else if f.filterConfig.forceLlmFilter then f.summarize content purpose api
  else if content.length ≤ f.filterConfig.maxResponseChars then content
  else if content.length < f.filterConfig.summarizeThreshold then f.truncate content
  else f.summarize content purpose api

/-! ### Basic shaper lemmas -/

/-- Truncation is the identity on content that fits. -/
theorem LlmFilter.truncate_of_le (f : LlmFilter) (content : String)
    (h : content.length ≤ f.filterConfig.maxResponseChars) :
    f.truncate content = content := by
  simp [LlmFilter.truncate, h]

/-- On a failed or empty completion-API outcome, `summarize` truncates. -/
theorem LlmFilter.summarize_of_apiFail (f : LlmFilter) (content : String)
    (purpose : Option String) (api : Option String)
    (h : api = none ∨ api = some "") :
    f.summarize content purpose api = f.truncate content := by
  rcases h with h | h <;> subst h <;> simp [LlmFilter.summarize]

/-- **C3.** For all content `C` with `len(C) ≤ maxResponseChars` and
`forceSummarize` false, `filter` returns `C` unchanged, in every filter
configuration (filtering enabled or disabled, completion-API credential present
or absent). -/
theorem filter_identity_below_threshold (f : LlmFilter) (content : String)
    (purpose : Option String) (api : Option String)
    (hlen : content.length ≤ f.filterConfig.maxResponseChars)
    (hforce : f.filterConfig.forceLlmFilter = false) :
    f.filter content purpose api = content := by
  unfold LlmFilter.filter
  by_cases h : (!f.filterConfig.enabled || !f.hasClient) = true
  · simp [h, f.truncate_of_le content hlen]
  · simp [h, hforce, hlen]

/-- Witness for C3 at a concrete configuration and content. -/
theorem filter_identity_below_threshold_witness :
    (LlmFilter.mk true ⟨true, 10, 5, false⟩).filter "short" none none = "short" :=
  filter_identity_below_threshold ⟨true, ⟨true, 10, 5, false⟩⟩ "short" none none
    (by decide) (by decide)

/-! ### Length facts about slicing and truncation -/

theorem mk_data (s : String) : String.mk s.data = s := rfl

theorem length_jsSlice (s : String) (n : Nat) :
    (jsSlice s n).length = min n s.length := by
  show (s.data.take n).length = min n s.data.length
  exact List.length_take n s.data

theorem truncMarker_length_pos (n : Nat) : 0 < (truncMarker n).length := by
  have h : truncMarker n =
      "\n\n[截断，原始长度: " ++ (toString n ++ " 字符]") := by
    simp [truncMarker, String.append_assoc]
  rw [h, String.length_append]
  have h2 : 0 < ("\n\n[截断，原始长度: " : String).length := by decide
  omega

/-- Slicing an appended string at the exact length of its left part returns
the left part. -/
theorem jsSlice_append_of_length_eq (s t : String) (n : Nat) (h : s.length = n) :
    jsSlice (s ++ t) n = s := by
  show String.mk ((s ++ t).data.take n) = s
  rw [String.data_append, List.take_left' h, mk_data]

/-- Truncation of over-long content: the first `maxResponseChars` characters
plus the marker. -/
theorem LlmFilter.truncate_of_gt (f : LlmFilter) (s : String)
    (h : f.filterConfig.maxResponseChars < s.length) :
    f.truncate s = jsSlice s f.filterConfig.maxResponseChars ++ truncMarker s.length := by
  unfold LlmFilter.truncate
  rw [if_neg (by omega)]

/-- The length of a truncated string: unchanged when it fits, otherwise the
limit plus the marker length. -/
theorem truncate_length (f : LlmFilter) (content : String) :
    (f.truncate content).length =
      if content.length ≤ f.filterConfig.maxResponseChars then content.length
      else f.filterConfig.maxResponseChars + (truncMarker content.length).length := by
  unfold LlmFilter.truncate
  split
  · rfl
  · rename_i h
    rw [String.length_append, length_jsSlice, Nat.min_eq_left (by omega)]

/-- The truncated string is never longer than the limit plus the marker
length. -/
theorem truncate_length_le (f : LlmFilter) (content : String) :
    (f.truncate content).length ≤
      f.filterConfig.maxResponseChars + (truncMarker content.length).length := by
  rw [truncate_length]
  split <;> omega

/-- **C1.** For every content string and optional purpose, if the
completion-API summarization call fails (throws) or returns empty content,
`filter` returns the truncation of the original content — which, when the
content exceeds `maxResponseChars`, is its first `maxResponseChars` characters
plus a marker stating the original length — and never propagates the error to
the caller (the result is a plain string on every path). -/
theorem filter_apiFail_truncates (f : LlmFilter) (content : String)
    (purpose : Option String) (api : Option String)
    (h : api = none ∨ api = some "") :
    f.filter content purpose api = f.truncate content ∧
    (f.filterConfig.maxResponseChars < content.length →
      f.filter content purpose api =
        jsSlice content f.filterConfig.maxResponseChars ++ truncMarker content.length) := by
  have hmain : f.filter content purpose api = f.truncate content := by
    unfold LlmFilter.filter
    split
    · rfl
    · split
      · exact f.summarize_of_apiFail content purpose api h
      · split
        · rename_i hlen
          exact (f.truncate_of_le content hlen).symm
        · split
          · rfl
          · exact f.summarize_of_apiFail content purpose api h
  refine ⟨hmain, fun hgt => ?_⟩
  rw [hmain]
  unfold LlmFilter.truncate
  rw [if_neg (by omega)]

/-- Witness for C1: a failing API call on over-long content yields the
truncated-and-marked string. -/
theorem filter_apiFail_truncates_witness :
    (LlmFilter.mk true ⟨true, 5, 3, false⟩).filter "aaaaaaa" (some "p") none =
      (LlmFilter.mk true ⟨true, 5, 3, false⟩).truncate "aaaaaaa" :=
  (filter_apiFail_truncates ⟨true, ⟨true, 5, 3, false⟩⟩ "aaaaaaa" (some "p") none
    (Or.inl rfl)).1

/-- **C2, counterexample.** With `forceLlmFilter = true` but filtering disabled
(`ENABLE_LLM_FILTER=false`) and a client present, `filter` does NOT attempt
model-assisted summarization: the disabled check precedes the force check, so
the succeeding API outcome `"SUM"` is ignored and the content is truncated. -/
theorem filter_force_not_always_summarize :
    (LlmFilter.mk true ⟨false, 5, 3, true⟩).filterConfig.forceLlmFilter = true ∧
    (LlmFilter.mk true ⟨false, 5, 3, true⟩).filter "aaaaaaa" none (some "SUM") ≠
      (LlmFilter.mk true ⟨false, 5, 3, true⟩).summarize "aaaaaaa" none (some "SUM") := by
  constructor
  · rfl
  · decide

/-- **C2, amended.** Whenever filtering is enabled, a completion-API client is
present and `forceLlmFilter` is true, `filter` attempts model-assisted
summarization regardless of the content length (bypassing all length checks),
and on completion-API failure returns a truncated result of length at most
`maxResponseChars` plus the marker length. (When filtering is disabled or no
client exists, `filter` truncates without attempting summarization even under
`forceLlmFilter`.) -/
theorem filter_force_summarizes (f : LlmFilter) (content : String)
    (purpose : Option String) (api : Option String)
    (hen : f.filterConfig.enabled = true) (hcl : f.hasClient = true)
    (hforce : f.filterConfig.forceLlmFilter = true) :
    f.filter content purpose api = f.summarize content purpose api ∧
    ((api = none ∨ api = some "") →
      (f.filter content purpose api).length ≤
        f.filterConfig.maxResponseChars + (truncMarker content.length).length) := by
  have hmain : f.filter content purpose api = f.summarize content purpose api := by
    unfold LlmFilter.filter
    simp [hen, hcl, hforce]
  refine ⟨hmain, fun hapi => ?_⟩
  rw [hmain, f.summarize_of_apiFail content purpose api hapi]
  exact truncate_length_le f content

/-- Witness for C2 (amended): concrete forced summarization on short content,
with a failing API call, stays within the truncation bound. -/
theorem filter_force_summarizes_witness :
    (LlmFilter.mk true ⟨true, 5, 3, true⟩).filter "ab" none none =
      (LlmFilter.mk true ⟨true, 5, 3, true⟩).summarize "ab" none none ∧
    ((none : Option String) = none ∨ (none : Option String) = some "" →
      ((LlmFilter.mk true ⟨true, 5, 3, true⟩).filter "ab" none none).length ≤
        5 + (truncMarker ("ab" : String).length).length) :=
  filter_force_summarizes ⟨true, ⟨true, 5, 3, true⟩⟩ "ab" none none rfl rfl rfl

/-- **C8.** Truncation is idempotent on the marker boundary: for content longer
than `maxResponseChars`, the pre-marker payload (the first `maxResponseChars`
characters) of the twice-truncated string is identical to the pre-marker
payload of the once-truncated string, which is the first `maxResponseChars`
characters of the original content. -/
theorem truncate_idempotent_payload (f : LlmFilter) (content : String)
    (h : f.filterConfig.maxResponseChars < content.length) :
    jsSlice (f.truncate (f.truncate content)) f.filterConfig.maxResponseChars =
      jsSlice content f.filterConfig.maxResponseChars ∧
    jsSlice (f.truncate content) f.filterConfig.maxResponseChars =
      jsSlice content f.filterConfig.maxResponseChars := by
  have hslicelen : (jsSlice content f.filterConfig.maxResponseChars).length =
      f.filterConfig.maxResponseChars := by
    rw [length_jsSlice]
    omega
  have h1 : f.truncate content =
      jsSlice content f.filterConfig.maxResponseChars ++ truncMarker content.length :=
    f.truncate_of_gt content h
  have hpay1 : jsSlice (f.truncate content) f.filterConfig.maxResponseChars =
      jsSlice content f.filterConfig.maxResponseChars := by
    rw [h1]
    exact jsSlice_append_of_length_eq _ _ _ hslicelen
  refine ⟨?_, hpay1⟩
  have hlen1 : (f.truncate content).length =
      f.filterConfig.maxResponseChars + (truncMarker content.length).length := by
    rw [truncate_length, if_neg (by omega)]
  have h2 : f.truncate (f.truncate content) =
      jsSlice (f.truncate content) f.filterConfig.maxResponseChars ++
        truncMarker (f.truncate content).length := by
    have := truncMarker_length_pos content.length
    exact f.truncate_of_gt (f.truncate content) (by omega)
  rw [h2, hpay1]
  exact jsSlice_append_of_length_eq _ _ _ hslicelen

/-- Witness for C8 at a concrete limit and content. -/
theorem truncate_idempotent_payload_witness :
    jsSlice ((LlmFilter.mk true ⟨true, 3, 2, false⟩).truncate
        ((LlmFilter.mk true ⟨true, 3, 2, false⟩).truncate "abcdef")) 3 =
      jsSlice "abcdef" 3 ∧
    jsSlice ((LlmFilter.mk true ⟨true, 3, 2, false⟩).truncate "abcdef") 3 =
      jsSlice "abcdef" 3 :=
  truncate_idempotent_payload ⟨true, ⟨true, 3, 2, false⟩⟩ "abcdef" (by decide)

/-! ## Tool names and lookup (`src/server.ts`, class `GatewayServer`) -/

/-- One character of `GatewayServer.utcpNameToTsName`'s replacement
`name.replace(/[.-]/g, '_')`: a dot or hyphen becomes an underscore. -/
def normChar (c : Char) : Char :=
  if c = '.' ∨ c = '-' then '_' else c

/-- `GatewayServer.utcpNameToTsName` (src/server.ts lines 237–239): replace
every `.` and `-` in the tool name with `_`. -/
def utcpNameToTsName (name : String) : String :=
  String.mk (name.data.map normChar)

theorem normChar_idem (c : Char) : normChar (normChar c) = normChar c := by
  unfold normChar
  by_cases h : c = '.' ∨ c = '-'
  · simp [h]
  · simp [h]

/-- Helper: the tool-name normalization is idempotent. -/
theorem utcpNameToTsName_idem (s : String) :
    utcpNameToTsName (utcpNameToTsName s) = utcpNameToTsName s := by
  unfold utcpNameToTsName
  simp [List.map_map, Function.comp_def, normChar_idem]

/-- **C10.** The tool-name normalization (replacing every `.` and `-` with
`_`) is idempotent: for every string `s`,
`utcpNameToTsName (utcpNameToTsName s) = utcpNameToTsName s`; this is what
makes a lookup of an already-normalized name agree with a lookup of the raw
name. -/
theorem utcpNameToTsName_idempotent (s : String) :
    utcpNameToTsName (utcpNameToTsName s) = utcpNameToTsName s :=
  utcpNameToTsName_idem s

/-- A registered UTCP tool as the gateway sees it: its provider-qualified name
and its description. -/
structure Tool where
  name : String
  description : String
deriving DecidableEq

/-- The matching predicate of `GatewayServer.toolInfo`'s fallback scan
(src/server.ts lines 368–374): exact match, the stored name already in
converted form, or both sides normalized. -/
def toolInfoMatch (toolName : String) (t : Tool) : Bool :=
  t.name == toolName ||
  utcpNameToTsName t.name == toolName ||
  utcpNameToTsName t.name == utcpNameToTsName toolName

/-- `GatewayServer.toolInfo`'s tool resolution (src/server.ts lines 357–383):
first the direct `client.getTool(toolName)` — the external UTCP client,
modelled from its interface as exact qualified-name lookup over the registered
tools — then, when that misses, the fallback scan with `toolInfoMatch`. -/
def toolInfoLookup (tools : List Tool) (toolName : String) : Option Tool :=
  match tools.find? (fun t => t.name == toolName) with
  | some t => some t
  | none => tools.find? (toolInfoMatch toolName)

theorem toolInfoMatch_eq (s : String) (t : Tool) :
    toolInfoMatch s t = (utcpNameToTsName t.name == utcpNameToTsName s) := by
  rw [Bool.eq_iff_iff]
  simp only [toolInfoMatch, Bool.or_eq_true, beq_iff_eq]
  constructor
  · rintro ((h | h) | h)
    · rw [h]
    · rw [← h, utcpNameToTsName_idem]
    · exact h
  · exact fun h => Or.inr h

theorem find?_congr_pred {α : Type} {l : List α} {p q : α → Bool}
    (h : ∀ a ∈ l, p a = q a) : l.find? p = l.find? q := by
  induction l with
  | nil => rfl
  | cons a l ih =>
    rw [List.find?_cons, List.find?_cons, h a (List.mem_cons_self a l)]
    cases q a with
    | true => rfl
    | false => exact ih fun b hb => h b (List.mem_cons_of_mem a hb)

theorem find?_eq_some_of_unique {α : Type} {l : List α} {p : α → Bool} {a : α}
    (ha : a ∈ l) (hpa : p a = true)
    (huniq : ∀ b ∈ l, p b = true → b = a) : l.find? p = some a := by
  cases hf : l.find? p with
  | none => exact absurd hpa (List.find?_eq_none.mp hf a ha)
  | some b =>
    rw [huniq b (List.mem_of_find?_eq_some hf) (List.find?_some hf)]

theorem toolInfo_fallback_eq (tools : List Tool) (s : String) :
    tools.find? (toolInfoMatch s) =
      tools.find? (fun t => utcpNameToTsName t.name == utcpNameToTsName s) :=
  find?_congr_pred fun t _ => toolInfoMatch_eq s t

/-- **C6, counterexample.** Two failure modes of the claim. First, lookups are
case-sensitive: for the registered tool `doc.get`, the raw spelling resolves
but an upper-cased variant of its normalized name does not. Second, when two
registered tools collide under normalization — `a.b` and `a-b` both normalize
to `a_b`, both legal under the dotted/hyphenated delimiter convention — the
raw spelling `a-b` resolves to the tool `a-b` (direct qualified-name hit)
while its normalized-token spelling `a_b` resolves to the other tool `a.b`
(first fallback match), so two spellings of the same tool identity return
different interfaces. -/
theorem toolInfoLookup_spelling_counterexample :
    (toolInfoLookup [Tool.mk "doc.get" "d"] "doc.get" = some (Tool.mk "doc.get" "d") ∧
     toolInfoLookup [Tool.mk "doc.get" "d"] "DOC_GET" = none) ∧
    (toolInfoLookup [Tool.mk "a.b" "d1", Tool.mk "a-b" "d2"] "a-b" =
        some (Tool.mk "a-b" "d2") ∧
     toolInfoLookup [Tool.mk "a.b" "d1", Tool.mk "a-b" "d2"] (utcpNameToTsName "a-b") =
        some (Tool.mk "a.b" "d1")) := by
  decide

/-- **C6, amended.** When no two registered tools share a normalized name,
looking a tool up by its raw provider-qualified name, by its normalized-token
name, or by an input that was already normalized resolves to the same tool
(hence the same interface text): lookup is invariant under the separator
normalization. Lookups remain case-sensitive. -/
theorem toolInfoLookup_norm_invariant (tools : List Tool)
    (hinj : ∀ t1 ∈ tools, ∀ t2 ∈ tools,
      utcpNameToTsName t1.name = utcpNameToTsName t2.name → t1 = t2)
    (s : String) :
    toolInfoLookup tools (utcpNameToTsName s) = toolInfoLookup tools s := by
  have hNN : utcpNameToTsName (utcpNameToTsName s) = utcpNameToTsName s :=
    utcpNameToTsName_idem s
  cases he1 : tools.find? (fun t => t.name == s) with
  | some t =>
    have htmem : t ∈ tools := List.mem_of_find?_eq_some he1
    have ht : t.name = s := by simpa using List.find?_some he1
    have htP : utcpNameToTsName t.name = utcpNameToTsName s := by rw [ht]
    cases he2 : tools.find? (fun u => u.name == utcpNameToTsName s) with
    | some u =>
      have humem : u ∈ tools := List.mem_of_find?_eq_some he2
      have hu : u.name = utcpNameToTsName s := by simpa using List.find?_some he2
      have : u = t := hinj u humem t htmem (by rw [hu, hNN, htP])
      simp [toolInfoLookup, he1, he2, this]
    | none =>
      have hfb : tools.find? (toolInfoMatch (utcpNameToTsName s)) = some t := by
        rw [toolInfo_fallback_eq]
        refine find?_eq_some_of_unique htmem ?_ ?_
        · simp [hNN, htP]
        · intro b hb hpb
          simp [hNN] at hpb
          exact hinj b hb t htmem (by rw [hpb, htP])
      simp [toolInfoLookup, he1, he2, hfb]
  | none =>
    cases he2 : tools.find? (fun u => u.name == utcpNameToTsName s) with
    | some u =>
      have humem : u ∈ tools := List.mem_of_find?_eq_some he2
      have hu : u.name = utcpNameToTsName s := by simpa using List.find?_some he2
      have hfb : tools.find? (toolInfoMatch s) = some u := by
        rw [toolInfo_fallback_eq]
        refine find?_eq_some_of_unique humem ?_ ?_
        · simp [hu, hNN]
        · intro b hb hpb
          simp at hpb
          exact hinj b hb u humem (by rw [hpb, hu, hNN])
      simp [toolInfoLookup, he1, he2, hfb]
    | none =>
      have hfb : tools.find? (toolInfoMatch (utcpNameToTsName s)) =
          tools.find? (toolInfoMatch s) := by
        rw [toolInfo_fallback_eq, toolInfo_fallback_eq, hNN]
      simp [toolInfoLookup, he1, he2, hfb]

/-- Witness for C6 (amended) on a concrete one-tool registry. -/
theorem toolInfoLookup_norm_invariant_witness :
    toolInfoLookup [Tool.mk "doc.get" "d"] (utcpNameToTsName "doc.get") =
      toolInfoLookup [Tool.mk "doc.get" "d"] "doc.get" :=
  toolInfoLookup_norm_invariant [Tool.mk "doc.get" "d"] (by decide) "doc.get"

/-! ## Composite-call response shaping (`GatewayServer.callToolChain`) -/

/-- The marker appended when the serialized envelope is truncated to
`max_output_size` (src/server.ts line 523). -/
def maxOutputMarker : String :=
  "\n...\n[max_output_size exceeded, 请在代码中过滤数据后再 return]"

/-- The response-shaping decision of `GatewayServer.callToolChain`
(src/server.ts lines 497–540), applied to the serialized result envelope
`content = JSON.stringify({success, result, logs})` (serialization by the
external JSON collaborator). `shouldFilter` is
`filterResponse || this.config.filter.forceLlmFilter`; an oversized envelope is
shaped only when `shouldFilter` holds **and** a truthy `purpose` was given,
otherwise truncated with `maxOutputMarker`; a fitting envelope is shaped
exactly when `shouldFilter` holds. -/
def callToolChainShape (f : LlmFilter) (content : String) (maxOutputSize : Nat)
    (filterResponse : Bool) (purpose : Option String) (api : Option String) : String :=
  let shouldFilter := filterResponse || f.filterConfig.forceLlmFilter
  if maxOutputSize < content.length then
    if shouldFilter && strTruthy purpose then f.filter content purpose api
    else jsSlice content maxOutputSize ++ maxOutputMarker
  else if shouldFilter then f.filter content purpose api
  else content

/-- **C5, counterexample.** An oversized envelope with a purpose given but
filtering neither requested nor forced is truncated with the
`max_output_size` marker, not passed to the Response Shaper — contrary to the
claim that a given purpose alone triggers shaping. -/
theorem callToolChain_purpose_not_sufficient :
    5 < ("aaaaaaa" : String).length ∧
    strTruthy (some "p") = true ∧
    callToolChainShape ⟨true, ⟨true, 5, 3, false⟩⟩ "aaaaaaa" 5 false (some "p") (some "SUM") ≠
      (LlmFilter.mk true ⟨true, 5, 3, false⟩).filter "aaaaaaa" (some "p") (some "SUM") := by
  refine ⟨by decide, by decide, ?_⟩
  decide

/-- **C5, amended.** For every composite-execution call: when the serialized
envelope exceeds the caller-specified maximum output size, the Response Shaper
is applied exactly when the caller requested filtering or `forceSummarize` is
active **and** a (truthy) purpose was given, and otherwise the envelope is
truncated to the maximum output size with a marker instructing the caller to
filter data before returning; when the envelope fits, the Response Shaper is
applied exactly when the caller requested filtering or `forceSummarize` is
active. -/
theorem callToolChain_shaping_cases (f : LlmFilter) (content : String)
    (maxOutputSize : Nat) (filterResponse : Bool) (purpose : Option String)
    (api : Option String) :
    (maxOutputSize < content.length →
      (((filterResponse = true ∨ f.filterConfig.forceLlmFilter = true) ∧
          strTruthy purpose = true) →
        callToolChainShape f content maxOutputSize filterResponse purpose api =
          f.filter content purpose api) ∧
      (¬((filterResponse = true ∨ f.filterConfig.forceLlmFilter = true) ∧
          strTruthy purpose = true) →
        callToolChainShape f content maxOutputSize filterResponse purpose api =
          jsSlice content maxOutputSize ++ maxOutputMarker)) ∧
    (content.length ≤ maxOutputSize →
      ((filterResponse = true ∨ f.filterConfig.forceLlmFilter = true) →
        callToolChainShape f content maxOutputSize filterResponse purpose api =
          f.filter content purpose api) ∧
      ((filterResponse = false ∧ f.filterConfig.forceLlmFilter = false) →
        callToolChainShape f content maxOutputSize filterResponse purpose api =
          content)) := by
  cases hfr : filterResponse <;>
    cases hfo : f.filterConfig.forceLlmFilter <;>
    cases hp : strTruthy purpose <;>
    by_cases hgt : maxOutputSize < content.length <;>
    simp_all [callToolChainShape]

/-- Witness for C5 (amended): an oversized envelope with filtering requested
and a purpose given is shaped. -/
theorem callToolChain_shaping_cases_witness :
    callToolChainShape ⟨true, ⟨true, 5, 3, false⟩⟩ "aaaaaaa" 5 true (some "p") (some "SUM") =
      (LlmFilter.mk true ⟨true, 5, 3, false⟩).filter "aaaaaaa" (some "p") (some "SUM") :=
  ((callToolChain_shaping_cases ⟨true, ⟨true, 5, 3, false⟩⟩ "aaaaaaa" 5 true
      (some "p") (some "SUM")).1 (by decide)).1 ⟨Or.inl rfl, by decide⟩

/-! ## LLM tool routing (`GatewayServer.llmSearchTools`) -/

/-- `s.toLowerCase()`: lower-case every character. -/
def jsToLower (s : String) : String :=
  String.mk (s.data.map Char.toLower)

/-- `s.trim()`: drop leading and trailing whitespace. -/
def jsTrim (s : String) : String :=
  String.mk (((s.data.dropWhile Char.isWhitespace).reverse.dropWhile
    Char.isWhitespace).reverse)

/-- `this.toolFullDefs.get(name)` on the `Map` of normalized tool names,
modelled as first-match association lookup. -/
def mapGet (m : List (String × Tool)) (k : String) : Option Tool :=
  (m.find? (fun e => e.1 == k)).map (·.2)

/-- The three return shapes of `llmSearchTools` (src/server.ts lines 268–355):
the no-match result `{tools: [], message: '未找到匹配的工具'}`, a recommended
tool list, or the keyword-search fallback from the `catch` branch. -/
inductive SearchResult where
  | noMatch : SearchResult
  | recommended (tools : List Tool) : SearchResult
  | lexical (tools : List Tool) : SearchResult
deriving DecidableEq

/-- `GatewayServer.llmSearchTools` (src/server.ts lines 268–355). The oracle
`api` is the outcome of the completion call (`none` = thrown exception, taken
by the `catch` that falls back to `client.searchTools(query, limit)`); on
success, `response.choices[0]?.message?.content || 'none'` gives `resultText`,
the literal `none` answer (lower-cased, trimmed) yields the no-match result,
and otherwise the comma-separated names are trimmed, filtered and resolved
against `toolFullDefs`, silently dropping unknown names. -/
def llmSearchTools (toolFullDefs : List (String × Tool))
    (lexicalSearch : String → Nat → List Tool) (query : String) (limit : Nat)
    (api : Option String) : SearchResult :=
  match api with
  | none => .lexical (lexicalSearch query limit)
  | some content =>
    let resultText := if content == "" then "none" else content
    if jsTrim (jsToLower resultText) == "none" then .noMatch
    else
      let recommendedNames := ((resultText.splitOn ",").map jsTrim).filter
        (fun n => !(n == "") && !(n == "none"))
      .recommended (recommendedNames.filterMap (mapGet toolFullDefs))

/-- **C7.** With routing enabled and a credential present: if the completion
API returns the literal token `none` (after lower-casing and trimming), search
returns the empty-tool-list no-match result without throwing; and if the
completion-API call throws, search falls back to lexical (keyword) search over
the same query and limit — so no completion-API failure is surfaced to the
caller. -/
theorem llmSearchTools_none_and_failure (toolFullDefs : List (String × Tool))
    (lexicalSearch : String → Nat → List Tool) (query : String) (limit : Nat) :
    (∀ resp : String, jsTrim (jsToLower resp) = "none" →
      llmSearchTools toolFullDefs lexicalSearch query limit (some resp) =
        SearchResult.noMatch) ∧
    llmSearchTools toolFullDefs lexicalSearch query limit none =
      SearchResult.lexical (lexicalSearch query limit) := by
  refine ⟨fun resp h => ?_, rfl⟩
  have hne : (resp == "") = false := by
    rcases eq_or_ne resp "" with he | he
    · subst he
      exact absurd h (by decide)
    · simp [he]
  simp [llmSearchTools, hne, h]

/-- Witness for C7: the response `"None "` (case and whitespace noise) gives
the no-match result on a concrete registry. -/
theorem llmSearchTools_none_witness :
    llmSearchTools [("a_b", Tool.mk "a.b" "d")] (fun _ _ => []) "quantum_foo" 10
      (some "None ") = SearchResult.noMatch :=
  (llmSearchTools_none_and_failure [("a_b", Tool.mk "a.b" "d")] (fun _ _ => [])
    "quantum_foo" 10).1 "None " (by decide)

/-! ## Configuration resolution (`src/config.ts`, `loadConfig`) -/

/-- The transport of a provider. -/
inductive Transport where
  | http : Transport
  | stdio : Transport
deriving DecidableEq

/-- `McpConfig` as built by `src/config.ts` (the per-provider environment map
is produced from the raw `*ENV_JSON` value by the external JSON collaborator
with warnings on malformed input; the raw string, kept here, determines it). -/
structure McpConfig where
  name : String
  url : Option String
  transport : Transport
  command : Option String
  args : Option (List String)
  authType : String
  authKey : Option String
  authToken : Option String
  envJson : Option String
deriving DecidableEq

/-- One iteration of the `parseNumberedMcpConfig` loop (src/config.ts lines
126–178) for index `i`: skipped unless `MCP_<i>_NAME` is set and non-empty
(`if (!name) continue`); transport is `stdio` exactly when declared so or a
command is present; `authKey` is read but not part of the pushed object. -/
def numberedMcpAt (env : Env) (i : Nat) : Option McpConfig :=
  let pre := "MCP_" ++ toString i ++ "_"
  match env (pre ++ "NAME") with
  | none => none
  | some name =>
    if name == "" then none
    else
      let url := env (pre ++ "URL")
      let command := env (pre ++ "COMMAND")
      let argsStr := env (pre ++ "ARGS")
      let transport := env (pre ++ "TRANSPORT")
      let authType := env (pre ++ "AUTH_TYPE")
      let authToken := env (pre ++ "AUTH_TOKEN")
      let envJson := env (pre ++ "ENV_JSON")
      let isStdio := transport == some "stdio" || strTruthy command
      some {
        name := name
        url := url
        transport := if isStdio then Transport.stdio else Transport.http
        command := command
        args := match argsStr with
          | none => none
          | some s => if s == "" then none else some (s.splitOn ",")
        authType := jsOr authType "none"
        authKey := none
        authToken := authToken
        envJson := envJson }

/-- `parseNumberedMcpConfig` (src/config.ts lines 122–181): the indexed shape,
scanning indices 1 through 20. -/
def parseNumberedMcpConfig (env : Env) : List McpConfig :=
  (List.range 20).filterMap (fun j => numberedMcpAt env (j + 1))

/-- `process.env.X?.split(';') || []`. -/
def envSplitList (env : Env) (key : String) : List String :=
  match env key with
  | none => []
  | some s => s.splitOn ";"

/-- `parseLegacyMcpConfig` (src/config.ts lines 186–253): the delimited
(semicolon-joined) shape. The provider count is the maximum length over the
URL, command and name lists; entries are aligned positionally; a position with
no (or an empty) name is dropped. -/
def parseLegacyMcpConfig (env : Env) : List McpConfig :=
  let mcpUrls := envSplitList env "MCP_URL"
  let mcpNames := envSplitList env "MCP_NAME"
  let mcpTransports := envSplitList env "MCP_TRANSPORT"
  let mcpAuthTypes := envSplitList env "MCP_AUTH_TYPE"
  let mcpAuthKeys := envSplitList env "MCP_AUTH_KEY"
  let mcpAuthTokens := envSplitList env "MCP_AUTH_TOKEN"
  let mcpCommands := envSplitList env "MCP_COMMAND"
  let mcpArgsArray := envSplitList env "MCP_ARGS"
  let mcpEnvJsons := envSplitList env "MCP_ENV_JSON"
  let mcpCount := max mcpUrls.length (max mcpCommands.length mcpNames.length)
  (List.range mcpCount).filterMap (fun i =>
    let transport := jsOr mcpTransports[i]? "http"
    let command := mcpCommands[i]?
    let isStdio := transport == "stdio" || strTruthy command
    match mcpNames[i]? with
    | none => none
    | some name =>
      if name == "" then none
      else some {
        url := mcpUrls[i]?
        name := name
        transport := if isStdio then Transport.stdio else Transport.http
        command := command
        args := (mcpArgsArray[i]?).map (fun s => s.splitOn ",")
        authType := jsOr mcpAuthTypes[i]? "none"
        authKey := mcpAuthKeys[i]?
        authToken := mcpAuthTokens[i]?
        envJson := mcpEnvJsons[i]? })

/-- The provider-list part of `loadConfig` (src/config.ts lines 78–89): the
indexed shape wins whenever it yields any provider, otherwise the delimited
shape is consulted. -/
def loadConfigMcps (env : Env) : List McpConfig :=
  let numberedMcps := parseNumberedMcpConfig env
  if numberedMcps.length > 0 then numberedMcps
  else parseLegacyMcpConfig env

/-- **C4.** For every environment: if the indexed shape yields at least one
provider (some `MCP_<i>_NAME`, `1 ≤ i ≤ 20`, set to a non-empty value),
configuration resolution takes exactly the indexed providers and ignores the
delimited shape entirely; the delimited shape is consulted only when the
indexed shape yields zero providers; the two are never merged. -/
theorem loadConfig_shape_precedence (env : Env) :
    ((∃ i, 1 ≤ i ∧ i ≤ 20 ∧
        strTruthy (env ("MCP_" ++ toString i ++ "_" ++ "NAME")) = true) →
      parseNumberedMcpConfig env ≠ [] ∧
      loadConfigMcps env = parseNumberedMcpConfig env) ∧
    (parseNumberedMcpConfig env = [] →
      loadConfigMcps env = parseLegacyMcpConfig env) := by
  constructor
  · rintro ⟨i, h1, h2, h3⟩
    have hsome : ∃ cfg, numberedMcpAt env i = some cfg := by
      unfold numberedMcpAt
      cases he : env ("MCP_" ++ toString i ++ "_" ++ "NAME") with
      | none =>
        rw [he] at h3
        exact absurd h3 (by simp [strTruthy])
      | some nm =>
        rw [he] at h3
        have hnm : (nm == "") = false := by
          simpa [strTruthy] using h3
        simp only [he, hnm]
        exact ⟨_, rfl⟩
    obtain ⟨cfg, hcfg⟩ := hsome
    have hmem : cfg ∈ parseNumberedMcpConfig env := by
      unfold parseNumberedMcpConfig
      refine List.mem_filterMap.mpr ⟨i - 1, List.mem_range.mpr (by omega), ?_⟩
      rw [Nat.sub_add_cancel h1]
      exact hcfg
    have hne : parseNumberedMcpConfig env ≠ [] := List.ne_nil_of_mem hmem
    refine ⟨hne, ?_⟩
    unfold loadConfigMcps
    rw [if_pos (List.length_pos.mpr hne)]
  · intro h
    unfold loadConfigMcps
    rw [h]
    simp

/-- A concrete environment for the C4 witness: only `MCP_1_NAME` is set. -/
def envIndexedOnly : Env :=
  fun k => if k = "MCP_1_NAME" then some "docs" else none

/-- Witness for C4: with `MCP_1_NAME=docs` the indexed shape is taken. -/
theorem loadConfig_shape_precedence_witness :
    parseNumberedMcpConfig envIndexedOnly ≠ [] ∧
    loadConfigMcps envIndexedOnly = parseNumberedMcpConfig envIndexedOnly :=
  (loadConfig_shape_precedence envIndexedOnly).1 ⟨1, le_refl 1, by omega, by decide⟩

/-! ## Lazy initialization of the shared UTCP client
(`GatewayServer.getUtcpClient`, src/server.ts lines 133–146)

The method reads `this.utcpClient`; when `null` it performs
`this.utcpClient = await CodeModeUtcpClient.create()` — the field is assigned
only after the awaited promise resolves — and then registers every configured
provider. JavaScript's event loop interleaves tasks at `await` points, so a
call is modelled as a small program with an explicit suspension between the
null check and the field assignment; a schedule chooses which of two
concurrent calls advances. `registrations` counts completed provider
registration sequences. -/

/-- Program counter of one call to `getUtcpClient`: before the null check, in
flight at `await CodeModeUtcpClient.create()`, or returned. -/
inductive InitPC where
  | start : InitPC
  | creating : InitPC
  | finished : InitPC
deriving DecidableEq

/-- Shared state (`this.utcpClient`, registration-sequence count) and the two
calls' program counters. -/
structure GatewayInitState where
  utcpClient : Option Unit
  registrations : Nat
  pcA : InitPC
  pcB : InitPC
deriving DecidableEq

/-- One step of one call: the `if (!this.utcpClient)` check (suspending at
`await create()` when the field is null), or the resumption that assigns the
field and runs the registration loop. -/
def stepCall (pc : InitPC) (client : Option Unit) (regs : Nat) :
    InitPC × Option Unit × Nat :=
  match pc with
  | .start =>
    match client with
    | some _ => (.finished, client, regs)
    | none => (.creating, client, regs)
  | .creating => (.finished, some (), regs + 1)
  | .finished => (.finished, client, regs)

/-- Advance call B (`true`) or call A (`false`) by one step. -/
def stepTask (s : GatewayInitState) (t : Bool) : GatewayInitState :=
  if t then
    let r := stepCall s.pcB s.utcpClient s.registrations
    { s with pcB := r.1, utcpClient := r.2.1, registrations := r.2.2 }
  else
    let r := stepCall s.pcA s.utcpClient s.registrations
    { s with pcA := r.1, utcpClient := r.2.1, registrations := r.2.2 }

/-- Run a schedule of interleaved steps. -/
def runSchedule (s : GatewayInitState) (sched : List Bool) : GatewayInitState :=
  sched.foldl stepTask s

/-- Both calls pending, field unassigned, nothing registered yet. -/
def initState : GatewayInitState := ⟨none, 0, InitPC.start, InitPC.start⟩

/-- **C9.** The claim requires that two concurrent first-calls perform exactly
one registration sequence. The code's unguarded null check violates this: when
the second call's check runs while the first is suspended at
`await CodeModeUtcpClient.create()` (schedule A-check, B-check, A-resume,
B-resume), both calls see `utcpClient = null` and both run the registration
sequence — every provider is registered twice. A sequential schedule (second
call after the first completes) performs only one, as claimed. -/
theorem getUtcpClient_double_registration :
    (runSchedule initState [false, true, false, true]).registrations = 2 ∧
    (runSchedule initState [false, false, true]).registrations = 1 := by
  decide

end Gateway
